import Mathlib

/-!
Verification development for the demyst/scilint semantic-analysis core:
the dimension algebra and unit-inference engine (demyst/guards/unit_guard.py),
the variance-context-aware mirage detector (demyst/engine/mirage_detector.py),
and the rewrite engine entry point (scilint/engine/transpiler.py).

The Python code is shallowly embedded: dataclasses become structures, the
AST-visitor traversals become recursive functions over an inductive syntax
tree covering exactly the closed set of node kinds the analyzers dispatch on
(identifier, literal, binary operation, comparison, call, assignment,
function definition, unary operation, attribute access), and mutable visitor
state is threaded explicitly.  Machine integers are Int (Python ints are
unbounded, so no modular arithmetic is needed).
-/

namespace Demyst

/-- Embeds the frozen dataclass Dimension of unit_guard.py: a physical
dimension as a tuple of integer exponents (L, M, T, I, Theta, N, J). -/
structure Dimension where
  exponents : List Int
deriving DecidableEq, Repr

/-- Embeds Dimension.__post_init__: a constructor argument whose length is
not 7 is right-padded with zeros (for arguments longer than 7 the Python
code appends an empty list, and Nat subtraction makes the replicate count 0,
so both leave the tuple unchanged). -/
def Dimension.make (es : List Int) : Dimension :=
  if es.length ≠ 7 then ⟨es ++ List.replicate (7 - es.length) 0⟩ else ⟨es⟩

def Dimension.dimensionless : Dimension := Dimension.make [0, 0, 0, 0, 0, 0, 0]

def Dimension.length : Dimension := Dimension.make [1, 0, 0, 0, 0, 0, 0]

def Dimension.mass : Dimension := Dimension.make [0, 1, 0, 0, 0, 0, 0]

def Dimension.time : Dimension := Dimension.make [0, 0, 1, 0, 0, 0, 0]

def Dimension.temperature : Dimension := Dimension.make [0, 0, 0, 0, 1, 0, 0]

def Dimension.velocity : Dimension := Dimension.make [1, 0, -1, 0, 0, 0, 0]

def Dimension.acceleration : Dimension := Dimension.make [1, 0, -2, 0, 0, 0, 0]

def Dimension.force : Dimension := Dimension.make [1, 1, -2, 0, 0, 0, 0]

def Dimension.energy : Dimension := Dimension.make [2, 1, -2, 0, 0, 0, 0]

def Dimension.power : Dimension := Dimension.make [2, 1, -3, 0, 0, 0, 0]

def Dimension.pressure : Dimension := Dimension.make [-1, 1, -2, 0, 0, 0, 0]

/-- Embeds Dimension.__mul__: multiply dimensions (add exponents). -/
def Dimension.mul (a b : Dimension) : Dimension :=
  Dimension.make (List.zipWith (· + ·) a.exponents b.exponents)

/-- Embeds Dimension.__truediv__: divide dimensions (subtract exponents). -/
def Dimension.div (a b : Dimension) : Dimension :=
  Dimension.make (List.zipWith (· - ·) a.exponents b.exponents)

/-- Embeds Dimension.__pow__: raise dimension to an integer power. -/
def Dimension.pow (a : Dimension) (n : Int) : Dimension :=
  Dimension.make (a.exponents.map (· * n))

/-- Embeds Dimension.is_dimensionless. -/
def Dimension.isDimensionless (a : Dimension) : Bool :=
  a.exponents.all (· == 0)

/-- Embeds Dimension.__str__: canonical rendering, listing only non-zero
exponents and omitting exponent 1; the all-zero vector renders as "[1]". -/
def Dimension.render (d : Dimension) : String :=
  if d.isDimensionless then "[1]"
  else
    let symbols : List String := ["L", "M", "T", "I", "Θ", "N", "J"]
    let parts := (symbols.zip d.exponents).filterMap fun p =>
      if p.2 = 1 then some p.1
      else if p.2 ≠ 0 then some (p.1 ++ "^" ++ toString p.2)
      else none
    "[" ++ String.intercalate " " parts ++ "]"

/-!
Name-pattern inference (UNIT_PATTERNS / PHYSICAL_CONSTANTS /
UnitInferenceEngine.infer_from_name).

Every entry of UNIT_PATTERNS is a regex of one of the two shapes
  (?:^|_)(alt1|...|altk)(?:_|$)        -- plural := false
  (?:^|_)(alt1|...|altk)(?:_|s|$)      -- plural := true
compiled with re.IGNORECASE and applied with re.search.  That regex matches
a name iff the name can be split as pre ++ alt ++ post where pre is empty or
ends with an underscore, alt is one of the alternatives, and post is empty
or starts with an underscore (or with the letter s when plural).  The
matcher below implements exactly that semantics on lower-cased characters;
the case-insensitive flag is realised by lower-casing both sides.
-/

/-- Drops the alternative alt from the front of s, or returns none when s
does not start with alt. -/
def dropAlt : List Char → List Char → Option (List Char)
  | s, [] => some s
  | [], _ :: _ => none
  | c :: cs, d :: ds => if c == d then dropAlt cs ds else none

/-- The (?:_|$) respectively (?:_|s|$) tail of a pattern. -/
def altEnd (plural : Bool) : List Char → Bool
  | [] => true
  | c :: _ => c == '_' || (plural && c == 's')

/-- Does one of the alternatives match at the current position? -/
def hereMatch (alts : List (List Char)) (plural : Bool) (s : List Char) : Bool :=
  alts.any fun alt =>
    match dropAlt s alt with
    | some rest => altEnd plural rest
    | none => false

/-- re.search over all start positions; boundary records whether the current
position is the start of the string or is preceded by an underscore, which
is what the (?:^|_) head of every pattern requires. -/
def searchPat (alts : List (List Char)) (plural : Bool) : Bool → List Char → Bool
  | boundary, [] => boundary && hereMatch alts plural []
  | boundary, c :: cs =>
    (boundary && hereMatch alts plural (c :: cs)) || searchPat alts plural (c == '_') cs

/-- One compiled entry of UNIT_PATTERNS. -/
structure UnitPattern where
  alts : List String
  plural : Bool
  dim : Dimension

/-- Embeds UNIT_PATTERNS in declaration order (a Python dict preserves
insertion order, and compiled_patterns is built from it in that order).
Alternatives are stored lower-cased, realising re.IGNORECASE. -/
def unitPatterns : List UnitPattern := [
  ⟨["distance", "length", "height", "width", "depth", "radius", "diameter",
    "position", "x", "y", "z"], false, Dimension.length⟩,
  ⟨["meter", "metre", "m"], true, Dimension.length⟩,
  ⟨["km", "cm", "mm", "nm", "um"], true, Dimension.length⟩,
  ⟨["mass", "weight"], false, Dimension.mass⟩,
  ⟨["kg", "gram", "g"], true, Dimension.mass⟩,
  ⟨["time", "duration", "period", "dt", "delta_t"], false, Dimension.time⟩,
  ⟨["second", "sec", "s", "minute", "min", "hour", "hr"], true, Dimension.time⟩,
  ⟨["temp", "temperature", "t"], false, Dimension.temperature⟩,
  ⟨["kelvin", "celsius", "k"], true, Dimension.temperature⟩,
  ⟨["velocity", "speed", "v", "vel"], false, Dimension.velocity⟩,
  ⟨["m_per_s", "mps"], true, Dimension.velocity⟩,
  ⟨["acceleration", "accel", "a"], false, Dimension.acceleration⟩,
  ⟨["force", "f"], false, Dimension.force⟩,
  ⟨["newton", "n"], true, Dimension.force⟩,
  ⟨["energy", "e", "work", "w"], false, Dimension.energy⟩,
  ⟨["joule", "j", "ev", "ev"], true, Dimension.energy⟩,
  ⟨["power", "p"], false, Dimension.power⟩,
  ⟨["watt", "w"], true, Dimension.power⟩,
  ⟨["pressure", "p", "stress"], false, Dimension.pressure⟩,
  ⟨["pascal", "pa", "bar", "atm"], true, Dimension.pressure⟩,
  ⟨["ratio", "factor", "coefficient", "count", "index", "idx", "n", "num"],
    false, Dimension.dimensionless⟩,
  ⟨["probability", "prob", "p_value", "fraction", "percent"],
    false, Dimension.dimensionless⟩]

/-- Embeds PHYSICAL_CONSTANTS: exact, case-sensitive names checked before
the pattern table. -/
def physicalConstants : List (String × Dimension) := [
  ("c", Dimension.velocity),
  ("G", Dimension.make [3, -1, -2, 0, 0, 0, 0]),
  ("h", Dimension.make [2, 1, -1, 0, 0, 0, 0]),
  ("hbar", Dimension.make [2, 1, -1, 0, 0, 0, 0]),
  ("k_B", Dimension.make [2, 1, -2, 0, -1, 0, 0]),
  ("e", Dimension.make [0, 0, 1, 1, 0, 0, 0]),
  ("pi", Dimension.dimensionless),
  ("tau", Dimension.dimensionless)]

def assocLookup : List (String × Dimension) → String → Option Dimension
  | [], _ => none
  | (k, d) :: rest, n => if k = n then some d else assocLookup rest n

/-- First matching pattern wins, in declaration order. -/
def firstPatternMatch : List UnitPattern → List Char → Option Dimension
  | [], _ => none
  | p :: rest, s =>
    if searchPat (p.alts.map String.data) p.plural true s then some p.dim
    else firstPatternMatch rest s

/-- Embeds UnitInferenceEngine.infer_from_name: physical-constant table
first, then the ordered pattern table, else none. -/
def inferFromName (name : String) : Option Dimension :=
  match assocLookup physicalConstants name with
  | some d => some d
  | none => firstPatternMatch unitPatterns (name.data.map Char.toLower)

/-!
The syntax tree.  The analyzers dispatch on a closed set of Python AST node
kinds; the embedding is an inductive type covering exactly those kinds, each
carrying its lineno and col_offset.  List-shaped children use dedicated
mutual list types so that all traversals are plain structural recursion.
Keyword arguments of calls are kept as their value expressions only: none
of the embedded analyses reads keyword names (they matter only to the
rewriter's verbatim argument copy, which is consumed as an opaque
transformation here).
-/

/-- Binary operator node kinds; opName is Python's type(node.op).__name__
as consumed by infer_from_operation.  Only operators that actually occur in
subject programs are listed; the constructor named other covers every
remaining ast operator via its class name (never "Add", "Sub", "Mult",
"Div" or "Pow"). -/
inductive BOp where
  | add | sub | mult | div | pow
  | other (clsName : String)
deriving DecidableEq, Repr

def BOp.opName : BOp → String
  | .add => "Add"
  | .sub => "Sub"
  | .mult => "Mult"
  | .div => "Div"
  | .pow => "Pow"
  | .other s => s

/-- Literal constants (ast.Constant values).  Python bools are instances of
int, so they count as numeric for isinstance(value, (int, float)). -/
inductive PyConst where
  | intLit (n : Int)
  | floatLit
  | boolLit (b : Bool)
  | strLit (s : String)
  | noneLit
deriving DecidableEq, Repr

def PyConst.isNumeric : PyConst → Bool
  | .intLit _ => true
  | .floatLit => true
  | .boolLit _ => true
  | _ => false

mutual
/-- Expression nodes: ast.Name, ast.Constant, ast.BinOp, ast.Compare,
ast.Call, ast.UnaryOp, ast.Attribute, each with (lineno, col_offset). -/
inductive Expr where
  | ename (id : String) (line col : Nat)
  | econst (value : PyConst) (line col : Nat)
  | binOp (left : Expr) (op : BOp) (right : Expr) (line col : Nat)
  | compare (left : Expr) (comparators : Exprs) (line col : Nat)
  | call (func : Expr) (args : Exprs) (keywords : Exprs) (line col : Nat)
  | unaryOp (operand : Expr) (line col : Nat)
  | attr (value : Expr) (attrName : String) (line col : Nat)
inductive Exprs where
  | nil
  | cons (e : Expr) (es : Exprs)
end

mutual
/-- Statement nodes: ast.Assign, ast.FunctionDef (parameter names only, as
the analyzers use nothing else of ast.arguments), and expression
statements. -/
inductive Stmt where
  | assign (targets : Exprs) (value : Expr) (line col : Nat)
  | funcDef (name : String) (params : List String) (body : Stmts) (line col : Nat)
  | exprStmt (e : Expr)
inductive Stmts where
  | nil
  | cons (s : Stmt) (ss : Stmts)
end

/-- An ast.Module is its list of body statements. -/
abbrev Module := Stmts

/-!
UnitInferenceEngine's type environment.  self.type_environment is a Python
dict; it is embedded as an insertion-ordered association list with unique
keys, where registration updates in place (dict assignment) and lookup
returns the stored value.
-/

abbrev Env := List (String × Dimension)

/-- Dict assignment: update the existing key in place, else append. -/
def dictInsert : Env → String → Dimension → Env
  | [], n, d => [(n, d)]
  | (k, v) :: rest, n, d =>
    if k = n then (k, d) :: rest else (k, v) :: dictInsert rest n d

def lookupEnv : Env → String → Option Dimension
  | [], _ => none
  | (k, d) :: rest, n => if k = n then some d else lookupEnv rest n

/-- Embeds UnitInferenceEngine.register_type. -/
def registerType (env : Env) (name : String) (d : Dimension) : Env :=
  dictInsert env name d

/-- Embeds UnitInferenceEngine.get_type: explicit registration first, else
infer_from_name. -/
def getType (env : Env) (name : String) : Option Dimension :=
  match lookupEnv env name with
  | some d => some d
  | none => inferFromName name

/-- Embeds UnitInferenceEngine.infer_from_operation, keyed on the
operator's class name.  Note the Pow arm: a dimensionless exponent returns
the left dimension unchanged (the source comments this arm with
"Simplified - should track exponent"). -/
def inferFromOperation (op : String) (left right : Option Dimension) :
    Option Dimension :=
  match left, right with
  | some l, some r =>
    if op = "Add" ∨ op = "Sub" then
      if l = r then some l else none
    else if op = "Mult" then some (l.mul r)
    else if op = "Div" then some (l.div r)
    else if op = "Pow" then
      if r.isDimensionless then some l else none
    else none
  | _, _ => none

/-- Embeds DimensionalAnalyzer._get_func_name. -/
def getFuncName : Expr → Option String
  | .ename id _ _ => some id
  | .attr _ a _ _ => some a
  | _ => none

/-- Embeds the dimensionless_funcs set of
DimensionalAnalyzer._infer_function_return_dimension. -/
def dimensionlessFuncs : List String :=
  ["sin", "cos", "tan", "exp", "log", "log10", "sqrt", "abs", "ceil",
   "floor", "round"]

mutual
/-- Embeds DimensionalAnalyzer._infer_expression_dimension. -/
def inferExprDim (env : Env) : Expr → Option Dimension
  | .ename id _ _ => getType env id
  | .econst v _ _ => if v.isNumeric then some Dimension.dimensionless else none
  | .binOp l op r _ _ =>
    inferFromOperation op.opName (inferExprDim env l) (inferExprDim env r)
  | .call f args _ _ _ =>
    match getFuncName f with
    | some funcName => inferFunctionReturnDimension env funcName args
    | none => none
  | .unaryOp operand _ _ => inferExprDim env operand
  | .attr _ a _ _ => inferFromName a
  | .compare _ _ _ _ => none

/-- Embeds DimensionalAnalyzer._infer_function_return_dimension.  The
sqrt membership test in dimensionless_funcs returns first, so the dedicated
sqrt arm below (halving via Python floor division, Int.fdiv) is unreachable
exactly as in the source. -/
def inferFunctionReturnDimension (env : Env) (funcName : String)
    (args : Exprs) : Option Dimension :=
  if funcName ∈ dimensionlessFuncs then some Dimension.dimensionless
  else if funcName = "sqrt" then
    match args with
    | .cons a _ =>
      match inferExprDim env a with
      | some d => some (Dimension.make (d.exponents.map (Int.fdiv · 2)))
      | none => none
    | .nil => none
  else none
end

/-- Embeds the UnitViolation dataclass.  The prose fields (expression
text, description, physical_meaning, recommendation) are pure formatting
built by f-strings; they are omitted because no analyzed behavior reads
them back. -/
structure UnitViolation where
  violationType : String
  severity : String
  line : Nat
  col : Nat
  leftDimension : Option Dimension
  rightDimension : Option Dimension
deriving DecidableEq, Repr

/-- The comparator loop of DimensionalAnalyzer.visit_Compare: one
incompatible_comparison per known-and-unequal (left, comparator) pair, at
the Compare node's position. -/
def compareChecks (env : Env) (ld : Option Dimension) (line col : Nat) :
    Exprs → List UnitViolation
  | .nil => []
  | .cons c rest =>
    (match ld, inferExprDim env c with
     | some l, some r =>
       if l ≠ r then
         [⟨"incompatible_comparison", "critical", line, col, some l, some r⟩]
       else []
     | _, _ => []) ++ compareChecks env ld line col rest

/-- The target loop of DimensionalAnalyzer.visit_Assign: per Name target,
emit dimension_mismatch when the name-implied and inferred right-hand
dimensions are both known and unequal, then register the right-hand
dimension when known, else the name-implied one. -/
def processTargets (env : Env) (rightDim : Option Dimension)
    (line col : Nat) : Exprs → Env × List UnitViolation
  | .nil => (env, [])
  | .cons t rest =>
    match t with
    | .ename name _ _ =>
      let expected := inferFromName name
      let vs :=
        match expected, rightDim with
        | some ed, some rd =>
          if ed ≠ rd then
            [⟨"dimension_mismatch", "warning", line, col, some ed, some rd⟩]
          else []
        | _, _ => []
      let env' :=
        match rightDim with
        | some rd => registerType env name rd
        | none =>
          match expected with
          | some ed => registerType env name ed
          | none => env
      let r := processTargets env' rightDim line col rest
      (r.1, vs ++ r.2)
    | _ => processTargets env rightDim line col rest

mutual
/-- The expression part of the DimensionalAnalyzer traversal: visit_BinOp
and visit_Compare emit their violations and then generic_visit recurses
into the children in field order.  Expressions never modify the type
environment (only assignments and function definitions register), so this
part returns just the emitted violations. -/
def checkExpr (env : Env) (cf : Option String) : Expr → List UnitViolation
  | .ename _ _ _ => []
  | .econst _ _ _ => []
  | .binOp l op r line col =>
    (match inferExprDim env l, inferExprDim env r with
     | some ld, some rd =>
       if (op = BOp.add ∨ op = BOp.sub) ∧ ld ≠ rd then
         [⟨"incompatible_addition", "critical", line, col, some ld, some rd⟩]
       else []
     | _, _ => []) ++ checkExpr env cf l ++ checkExpr env cf r
  | .compare l cs line col =>
    compareChecks env (inferExprDim env l) line col cs
      ++ checkExpr env cf l ++ checkExprs env cf cs
  | .call f args kws _ _ =>
    checkExpr env cf f ++ checkExprs env cf args ++ checkExprs env cf kws
  | .unaryOp operand _ _ => checkExpr env cf operand
  | .attr v _ _ _ => checkExpr env cf v

def checkExprs (env : Env) (cf : Option String) : Exprs → List UnitViolation
  | .nil => []
  | .cons e es => checkExpr env cf e ++ checkExprs env cf es
end

/-- Embeds DimensionalAnalyzer.visit_FunctionDef's parameter loop: each
parameter name is eagerly registered via infer_from_name when a dimension
is inferred. -/
def registerParams (env : Env) : List String → Env
  | [] => env
  | p :: ps =>
    registerParams
      (match inferFromName p with
       | some d => registerType env p d
       | none => env) ps

mutual
/-- The statement part of the DimensionalAnalyzer traversal.  visit_Assign
registers targets before generic_visit descends into the value, so the
value's own BinOp checks run against the updated environment.
visit_FunctionDef saves and restores self.current_function (embedded as
the cf parameter) but pushes no environment scope: the body's
registrations flow out. -/
def runStmt (cf : Option String) (env : Env) : Stmt → Env × List UnitViolation
  | .assign targets value line col =>
    let rd := inferExprDim env value
    let pt := processTargets env rd line col targets
    (pt.1, pt.2 ++ checkExpr pt.1 cf value)
  | .funcDef name params body _ _ =>
    runStmts (some name) (registerParams env params) body
  | .exprStmt e => (env, checkExpr env cf e)

def runStmts (cf : Option String) (env : Env) : Stmts → Env × List UnitViolation
  | .nil => (env, [])
  | .cons s ss =>
    let r1 := runStmt cf env s
    let r2 := runStmts cf r1.1 ss
    (r2.1, r1.2 ++ r2.2)
end

/-- Embeds the summary dict of UnitGuard._generate_summary. -/
structure Summary where
  totalViolations : Nat
  criticalCount : Nat
  warningCount : Nat
  variablesTyped : Nat
  verdict : String
deriving DecidableEq, Repr

def generateSummary (vs : List UnitViolation) (env : Env) : Summary :=
  let critical := (vs.filter (fun v => v.severity = "critical")).length
  let warning := (vs.filter (fun v => v.severity = "warning")).length
  { totalViolations := vs.length
    criticalCount := critical
    warningCount := warning
    variablesTyped := env.length
    verdict :=
      if critical > 0 then "FAIL: Critical dimensional inconsistencies detected."
      else if warning > 0 then "WARNING: Potential dimensional issues detected."
      else "PASS: No dimensional inconsistencies detected." }

/-- Embeds the result dict of UnitGuard.analyze.  An absent dict key is
none. -/
structure AnalyzeResult where
  error : Option String
  violations : List UnitViolation
  inferredDimensions : List (String × String)
  summary : Option Summary
deriving DecidableEq, Repr

/-- Embeds UnitGuard.analyze.  Parsing is the external collaborator: it is
a parameter returning either a parse error message (the raised
SyntaxError) or the syntax tree.  On a parse error the method returns the
single syntax-error result without constructing an analyzer; otherwise a
fresh DimensionalAnalyzer (empty environment, no current function) visits
the tree. -/
def UnitGuard.analyze (parse : String → Except String Module)
    (source : String) : AnalyzeResult :=
  match parse source with
  | .error msg =>
    { error := some ("Syntax error: " ++ msg)
      violations := []
      inferredDimensions := []
      summary := none }
  | .ok tree =>
    let r := runStmts none [] tree
    { error := none
      violations := r.2
      inferredDimensions := r.1.map (fun p => (p.1, p.2.render))
      summary := some (generateSummary r.2 r.1) }

/-!
MirageDetector and VarianceContextCollector
(demyst/engine/mirage_detector.py).  Both visitors track
self.current_function stack-style (save, set, recurse, restore), embedded
as the cf parameter; the detector's self.mirages is append-only and never
read by the detection logic, so the visit functions return the findings
they emit, and analyze concatenates them onto the state's list exactly as
self.mirages.append does.
-/

/-- Embeds the mirage finding dict.  The node field (the AST node itself)
is omitted; the premature_discretization dict carries no variable key in
the source, embedded here as varName := none. -/
structure MirageFinding where
  ftype : String
  line : Nat
  col : Nat
  function : Option String
  varName : Option String
deriving DecidableEq, Repr

/-- Embeds VarianceContextCollector.VARIANCE_OPS. -/
def varianceOps : List String := ["std", "var", "nanstd", "nanvar", "std_", "var_"]

/-- Embeds MirageDetector's aggregation list. -/
def aggOps : List String := ["mean", "sum", "argmax", "argmin"]

/-- Embeds MirageDetector.VARIANCE_CONTEXT_LINES. -/
def varianceContextLines : Nat := 10

/-- The variance-context index: dict keyed by (variable name, enclosing
function scope) holding the set of lines where a variance computation was
seen, embedded as an association list of line lists without duplicates. -/
abbrev VCIndex := List ((Option String × Option String) × List Nat)

def lookupVC : VCIndex → (Option String × Option String) → Option (List Nat)
  | [], _ => none
  | (k, ls) :: rest, key => if k = key then some ls else lookupVC rest key

/-- variance_contexts[key].add(line), creating the entry when absent. -/
def addVC : VCIndex → (Option String × Option String) → Nat → VCIndex
  | [], key, line => [(key, [line])]
  | (k, ls) :: rest, key, line =>
    if k = key then (k, if line ∈ ls then ls else ls ++ [line]) :: rest
    else (k, ls) :: addVC rest key line

def isNpName : Expr → Bool
  | .ename b _ _ => b = "np" ∨ b = "numpy"
  | _ => false

def exprNameOf : Expr → Option String
  | .ename b _ _ => some b
  | _ => none

def headNameOf : Exprs → Option String
  | .cons (.ename x _ _) _ => some x
  | _ => none

/-- The branch structure of VarianceContextCollector.visit_Call: returns
some varName when the call is recognized as a variance operation (either
np|numpy attribute style, or method style on any other receiver), none
otherwise. -/
def collectCallKey (func : Expr) (args : Exprs) : Option (Option String) :=
  match func with
  | .attr value a _ _ =>
    if isNpName value then
      if a ∈ varianceOps then some (headNameOf args) else none
    else
      if a ∈ varianceOps then some (exprNameOf value) else none
  | _ => none

mutual
/-- The VarianceContextCollector traversal (visit_Call plus generic_visit
in field order: func, args, keywords). -/
def vcExpr (cf : Option String) (vc : VCIndex) : Expr → VCIndex
  | .call f args kws line _ =>
    let vc1 :=
      match collectCallKey f args with
      | some varName => addVC vc (varName, cf) line
      | none => vc
    vcExprs cf (vcExprs cf (vcExpr cf vc1 f) args) kws
  | .binOp l _ r _ _ => vcExpr cf (vcExpr cf vc l) r
  | .compare l cs _ _ => vcExprs cf (vcExpr cf vc l) cs
  | .unaryOp operand _ _ => vcExpr cf vc operand
  | .attr v _ _ _ => vcExpr cf vc v
  | .ename _ _ _ => vc
  | .econst _ _ _ => vc

def vcExprs (cf : Option String) (vc : VCIndex) : Exprs → VCIndex
  | .nil => vc
  | .cons e es => vcExprs cf (vcExpr cf vc e) es
end

mutual
def vcStmt (cf : Option String) (vc : VCIndex) : Stmt → VCIndex
  | .assign targets value _ _ => vcExpr cf (vcExprs cf vc targets) value
  | .funcDef name _ body _ _ => vcStmts (some name) vc body
  | .exprStmt e => vcExpr cf vc e

def vcStmts (cf : Option String) (vc : VCIndex) : Stmts → VCIndex
  | .nil => vc
  | .cons s ss => vcStmts cf (vcStmt cf vc s) ss
end

/-- Embeds MirageDetector._has_variance_context: false when the variance
pass is disabled or the argument is not a bare identifier; otherwise true
iff the index holds a line for (variable, current function) within
VARIANCE_CONTEXT_LINES of the call's line. -/
def hasVarianceContext (cv : Bool) (vc : VCIndex) (cf : Option String)
    (varName : Option String) (line : Nat) : Bool :=
  if !cv then false
  else
    match varName with
    | none => false
    | some v =>
      match lookupVC vc (some v, cf) with
      | none => false
      | some ls =>
        ls.any fun vl => (Int.ofNat vl - Int.ofNat line).natAbs ≤ varianceContextLines

/-- Embeds MirageDetector._is_array_like: any bare identifier counts. -/
def isArrayLike : Expr → Bool
  | .ename _ _ _ => true
  | _ => false

/-- The np|numpy aggregation branch of MirageDetector.visit_Call.  The
Bool is the early return taken when a mean/sum finding is suppressed by
variance context (which skips the discretization check, exactly as the
source's return statement does). -/
def detectAgg (cv : Bool) (vc : VCIndex) (cf : Option String) (func : Expr)
    (args : Exprs) (line col : Nat) : List MirageFinding × Bool :=
  match func with
  | .attr value a _ _ =>
    if isNpName value ∧ a ∈ aggOps then
      let varName := headNameOf args
      if (a = "mean" ∨ a = "sum") ∧ hasVarianceContext cv vc cf varName line then
        ([], true)
      else
        ([{ ftype := a, line := line, col := col, function := cf,
            varName := varName }], false)
    else ([], false)
  | _ => ([], false)

/-- The premature-discretization branch of MirageDetector.visit_Call. -/
def detectDisc (cf : Option String) (func : Expr) (args : Exprs)
    (line col : Nat) : List MirageFinding :=
  match func with
  | .ename f _ _ =>
    if f = "round" ∨ f = "int" then
      match args with
      | .cons a _ =>
        if isArrayLike a then
          [{ ftype := "premature_discretization", line := line, col := col,
             function := cf, varName := none }]
        else []
      | .nil => []
    else []
  | _ => []

/-- The full node action of MirageDetector.visit_Call (children are
visited by the traversal below, mirroring generic_visit). -/
def callFindings (cv : Bool) (vc : VCIndex) (cf : Option String)
    (func : Expr) (args : Exprs) (line col : Nat) : List MirageFinding :=
  match detectAgg cv vc cf func args line col with
  | (fs, true) => fs
  | (fs, false) => fs ++ detectDisc cf func args line col

mutual
/-- The MirageDetector traversal over expressions. -/
def mdExpr (cv : Bool) (vc : VCIndex) (cf : Option String) :
    Expr → List MirageFinding
  | .call f args kws line col =>
    callFindings cv vc cf f args line col
      ++ mdExpr cv vc cf f ++ mdExprs cv vc cf args ++ mdExprs cv vc cf kws
  | .binOp l _ r _ _ => mdExpr cv vc cf l ++ mdExpr cv vc cf r
  | .compare l cs _ _ => mdExpr cv vc cf l ++ mdExprs cv vc cf cs
  | .unaryOp operand _ _ => mdExpr cv vc cf operand
  | .attr v _ _ _ => mdExpr cv vc cf v
  | .ename _ _ _ => []
  | .econst _ _ _ => []

def mdExprs (cv : Bool) (vc : VCIndex) (cf : Option String) :
    Exprs → List MirageFinding
  | .nil => []
  | .cons e es => mdExpr cv vc cf e ++ mdExprs cv vc cf es
end

mutual
/-- The MirageDetector traversal over statements; visit_FunctionDef sets
the current function for the body and restores it after. -/
def mdStmt (cv : Bool) (vc : VCIndex) (cf : Option String) :
    Stmt → List MirageFinding
  | .assign targets value _ _ =>
    mdExprs cv vc cf targets ++ mdExpr cv vc cf value
  | .funcDef name _ body _ _ => mdStmts cv vc (some name) body
  | .exprStmt e => mdExpr cv vc cf e

def mdStmts (cv : Bool) (vc : VCIndex) (cf : Option String) :
    Stmts → List MirageFinding
  | .nil => []
  | .cons s ss => mdStmt cv vc cf s ++ mdStmts cv vc cf ss
end

/-- Embeds the mutable fields of a MirageDetector instance. -/
structure MDState where
  mirages : List MirageFinding
  currentFunction : Option String
  checkVarianceContext : Bool
  varianceContexts : VCIndex
deriving DecidableEq, Repr

/-- Embeds MirageDetector.__init__ with optional config: mirages starts
empty, check_variance_context defaults to True, the variance index starts
empty. -/
def MDState.init (config : Option Bool) : MDState :=
  { mirages := []
    currentFunction := none
    checkVarianceContext := config.getD true
    varianceContexts := [] }

/-- Embeds MirageDetector.analyze: when enabled, a fresh collector builds
the variance index; then the detector visits the tree, appending to the
existing self.mirages list (the source does not reset it), and returns
self.mirages. -/
def MirageDetector.analyze (s : MDState) (tree : Module) :
    MDState × List MirageFinding :=
  let vc :=
    if s.checkVarianceContext then vcStmts none [] tree
    else s.varianceContexts
  let ms := s.mirages ++ mdStmts s.checkVarianceContext vc s.currentFunction tree
  let s' := { s with varianceContexts := vc, mirages := ms }
  (s', s'.mirages)

/-- Modelled from the spec: the inline suppression marker recognized in a
trailing line comment (the repository's tests write it as the comment
"demyst: ignore-mirage"). -/
def suppressionMarker : String := "demyst: ignore-mirage"

/-- Is pat a contiguous substring of s? -/
def containsSub : List Char → List Char → Bool
  | s, pat =>
    (match dropAlt s pat with
     | some _ => true
     | none => false) ||
    (match s with
     | [] => false
     | _ :: rest => containsSub rest pat)

/-- Raw per-line text check: does the 1-based line ln of the source hold
the suppression marker? -/
def lineHasSuppressionMarker (sourceLines : List String) (ln : Nat) : Bool :=
  match sourceLines.get? (ln - 1) with
  | some l => containsSub l.data suppressionMarker.data
  | none => false

/-- Modelled from the spec: the analyze variant that also receives the raw
source text (exercised by the repository's tests as
detector.analyze(tree, source=code) and by the parallel worker, both
missing from src).  Before emitting the final finding list it drops every
finding whose source line contains the suppression marker - a raw
per-line text check, independent of tree structure, applied last. -/
def MirageDetector.analyzeWithSource (s : MDState) (tree : Module)
    (sourceLines : List String) : MDState × List MirageFinding :=
  let r := MirageDetector.analyze s tree
  (r.1, r.2.filter fun f => !lineHasSuppressionMarker sourceLines f.line)

/-!
The rewrite engine entry point (scilint/engine/transpiler.py).  The
Transpiler constructs one MirageDetector in __init__ and reuses it;
transpile_source calls the detector's visit directly (not analyze), so the
variance index stays empty and no suppression occurs.  scilint's own
MirageDetector module is one of the spec's duplicated variants and is not
under src; it is represented by the demyst variant embedded above with its
default configuration.  The AST substitution and re-serialization
(VariationTransformer plus ast.unparse) are consumed as an opaque
transform parameter: the claims settled here concern only the
detection/filter/no-op logic of transpile_source.
-/

/-- Embeds a TransformationRecord dict of Transpiler.transpile_source. -/
structure TransRecord where
  ttype : String
  line : Nat
  function : Option String
  transformation : String
deriving DecidableEq, Repr

def TransRecord.ofFinding (m : MirageFinding) : TransRecord :=
  { ttype := m.ftype
    line := m.line
    function := m.function
    transformation := m.ftype ++ " -> VariationTensor" }

/-- Embeds the mutable fields of a Transpiler instance: the accumulated
detector findings (self.detector.mirages) and self.transformations. -/
structure Transpiler where
  detectorMirages : List MirageFinding
  transformations : List TransRecord
deriving DecidableEq, Repr

/-- Embeds Transpiler.__init__. -/
def Transpiler.init : Transpiler := ⟨[], []⟩

/-- The optional target-line filter of transpile_source. -/
def filterByLine (ms : List MirageFinding) : Option Nat → List MirageFinding
  | some l => ms.filter (fun m => m.line = l)
  | none => ms

/-- Embeds Transpiler.transpile_source: parse, run the detector's visit
(accumulating onto the instance's mirage list), filter by target line;
when no mirage remains, return the source unchanged without touching
self.transformations; otherwise transform the tree and record one
TransformationRecord per mirage in order. -/
def Transpiler.transpileSource (tp : Transpiler)
    (parse : String → Except String Module)
    (transform : Module → List MirageFinding → String)
    (source : String) (targetLine : Option Nat) :
    Except String (String × Transpiler) :=
  match parse source with
  | .error e => .error e
  | .ok tree =>
    let dM := tp.detectorMirages ++ mdStmts true [] none tree
    let mirages := filterByLine dM targetLine
    if mirages.isEmpty then
      .ok (source, { tp with detectorMirages := dM })
    else
      .ok (transform tree mirages,
        { detectorMirages := dM,
          transformations := mirages.map TransRecord.ofFinding })

/-- The Dimension values reachable through the public constructors and the
closed algebra: construction from a tuple of at most seven integer
exponents (which covers all eleven named constructors, each of which
passes a 7-tuple), and the multiply, divide and power operations. -/
inductive ReachableDim : Dimension → Prop where
  | ofExponents (es : List Int) (h : es.length ≤ 7) :
      ReachableDim (Dimension.make es)
  | mul {a b : Dimension} : ReachableDim a → ReachableDim b →
      ReachableDim (a.mul b)
  | div {a b : Dimension} : ReachableDim a → ReachableDim b →
      ReachableDim (a.div b)
  | pow {a : Dimension} (n : Int) : ReachableDim a → ReachableDim (a.pow n)

/-!
Concrete subject programs used by counterexamples and witnesses.
-/

/-- The two-statement program

  def f():
      foo = mass
  foo + time

in which line 2 registers foo with the mass dimension inside the body of f
and line 3 looks foo up at module level after the definition is exited. -/
def c1Program : Stmts :=
  .cons (.funcDef "f" []
      (.cons (.assign (.cons (.ename "foo" 2 4) .nil) (.ename "mass" 2 10) 2 4)
        .nil) 1 0)
    (.cons (.exprStmt (.binOp (.ename "foo" 3 0) .add (.ename "time" 3 6) 3 0))
      .nil)

/-- The call expression sqrt(E), whose argument name E infers the energy
dimension. -/
def c2SqrtCall : Expr :=
  .call (.ename "sqrt" 1 8) (.cons (.ename "E" 1 13) .nil) .nil 1 8

/-- The one-line program r = sqrt(distance): the argument dimension is
length, whose single odd exponent is the fractional_dimension case of the
claim. -/
def c2SqrtProgram : Stmts :=
  .cons (.assign (.cons (.ename "r" 1 0) .nil)
    (.call (.ename "sqrt" 1 4) (.cons (.ename "distance" 1 9) .nil) .nil 1 4)
    1 0) .nil

/-- The power expression distance ** 2: base dimension length, literal
integer exponent 2. -/
def c3PowExpr : Expr :=
  .binOp (.ename "distance" 1 0) .pow (.econst (.intLit 2) 1 12) 1 0

/-- The one-statement module np.mean(x) at line 1. -/
def c9Tree : Stmts :=
  .cons (.exprStmt (.call (.attr (.ename "np" 1 0) "mean" 1 0)
    (.cons (.ename "x" 1 8) .nil) .nil 1 0)) .nil

/-- The one-statement module np.mean(x) at line 3 (the first two lines of
the corresponding source are an import and an assignment the detector does
not flag). -/
def c5Tree : Stmts :=
  .cons (.exprStmt (.call (.attr (.ename "np" 3 0) "mean" 3 0)
    (.cons (.ename "x" 3 8) .nil) .nil 3 0)) .nil

/-- Source text whose third line carries the inline suppression marker in
a trailing comment. -/
def c5Source : List String :=
  ["import numpy as np", "x = 1", "np.mean(x)  # demyst: ignore-mirage"]

/-!
Theorems.  Helper lemmas come first; each claim's theorem carries the
claim id in its doc comment.
-/

theorem Dimension.make_of_length {es : List Int} (h : es.length = 7) :
    Dimension.make es = ⟨es⟩ := by
  simp [Dimension.make, h]

theorem Dimension.make_exponents_length {es : List Int} (h : es.length ≤ 7) :
    (Dimension.make es).exponents.length = 7 := by
  unfold Dimension.make
  by_cases h7 : es.length = 7
  · simp [h7]
  · simp only [h7, if_true, ne_eq, not_false_eq_true, if_pos]
    simp [List.length_append, List.length_replicate]
    omega

theorem Dimension.make_exponents_pad {es : List Int} (_h : es.length ≤ 7) :
    (Dimension.make es).exponents = es ++ List.replicate (7 - es.length) 0 := by
  unfold Dimension.make
  by_cases h7 : es.length = 7
  · simp [h7]
  · simp [h7]

theorem zipWith_add_sub_cancel :
    ∀ (l1 l2 : List Int), l1.length = l2.length →
      List.zipWith (· - ·) (List.zipWith (· + ·) l1 l2) l2 = l1
  | [], [], _ => rfl
  | [], _ :: _, h => by simp at h
  | _ :: _, [], h => by simp at h
  | a :: l1, b :: l2, h => by
    simp only [List.length_cons] at h
    simp only [List.zipWith_cons_cons]
    rw [Int.add_sub_cancel, zipWith_add_sub_cancel l1 l2 (by omega)]

theorem map_mul_zero (l : List Int) :
    l.map (· * 0) = List.replicate l.length 0 := by
  induction l with
  | nil => rfl
  | cons a l ih => simp [ih, List.replicate_succ]

theorem map_mul_one (l : List Int) : l.map (· * 1) = l := by
  induction l with
  | nil => rfl
  | cons a l ih => simp [ih]

/-- Claim C6: for all dimension values a and b (7-component exponent
vectors), multiplication commutes, dividing a product by the second
factor returns the first, power 0 is the dimensionless dimension, and
power 1 is the identity. -/
theorem c6_dimension_algebra (a b : Dimension)
    (ha : a.exponents.length = 7) (hb : b.exponents.length = 7) :
    a.mul b = b.mul a ∧ (a.mul b).div b = a ∧
    a.pow 0 = Dimension.dimensionless ∧ a.pow 1 = a := by
  have hab : (List.zipWith (· + ·) a.exponents b.exponents).length = 7 := by
    rw [List.length_zipWith, ha, hb]; rfl
  refine ⟨?_, ?_, ?_, ?_⟩
  · unfold Dimension.mul
    rw [List.zipWith_comm_of_comm _ (fun x y => Int.add_comm x y)]
  · unfold Dimension.div Dimension.mul
    rw [Dimension.make_of_length hab]
    show Dimension.make
      (List.zipWith (· - ·) (List.zipWith (· + ·) a.exponents b.exponents)
        b.exponents) = a
    rw [zipWith_add_sub_cancel a.exponents b.exponents (ha.trans hb.symm),
      Dimension.make_of_length ha]
  · unfold Dimension.pow
    rw [map_mul_zero, ha]
    rfl
  · unfold Dimension.pow
    rw [map_mul_one, Dimension.make_of_length ha]

theorem c6_witness :
    Dimension.force.mul Dimension.time = Dimension.time.mul Dimension.force ∧
    (Dimension.force.mul Dimension.time).div Dimension.time = Dimension.force ∧
    Dimension.force.pow 0 = Dimension.dimensionless ∧
    Dimension.force.pow 1 = Dimension.force :=
  c6_dimension_algebra Dimension.force Dimension.time (by decide) (by decide)

/-- Claim C10: every Dimension reachable through the named constructors,
through construction from a tuple of at most seven integer exponents, or
through multiply, divide and power has an exponent vector of exactly seven
integers, and construction tuples shorter than seven are right-padded with
zeros. -/
theorem c10_seven_exponents :
    (∀ d : Dimension, ReachableDim d → d.exponents.length = 7) ∧
    (∀ es : List Int, es.length ≤ 7 →
      (Dimension.make es).exponents = es ++ List.replicate (7 - es.length) 0) := by
  constructor
  · intro d h
    induction h with
    | ofExponents es hle => exact Dimension.make_exponents_length hle
    | mul ra rb iha ihb =>
      unfold Dimension.mul
      exact Dimension.make_exponents_length
        (by rw [List.length_zipWith, iha, ihb]; omega)
    | div ra rb iha ihb =>
      unfold Dimension.div
      exact Dimension.make_exponents_length
        (by rw [List.length_zipWith, iha, ihb]; omega)
    | pow n ra iha =>
      unfold Dimension.pow
      exact Dimension.make_exponents_length (by rw [List.length_map, iha])
  · intro es h
    exact Dimension.make_exponents_pad h

theorem c10_witness :
    (Dimension.make [3]).exponents.length = 7 ∧
    (Dimension.make [1, 2]).exponents =
      [1, 2] ++ List.replicate (7 - [1, 2].length) 0 :=
  ⟨c10_seven_exponents.1 (Dimension.make [3])
      (ReachableDim.ofExponents [3] (by decide)),
    c10_seven_exponents.2 [1, 2] (by decide)⟩

/-- Claim C7: for every input string on which the parser fails, the
dimensional analysis call returns the single syntax-error result with an
empty violation list and an absent summary; no traversal runs and, the
embedding being a total function, no exception escapes. -/
theorem c7_syntax_error (parse : String → Except String Module)
    (source msg : String) (h : parse source = .error msg) :
    UnitGuard.analyze parse source =
      { error := some ("Syntax error: " ++ msg)
        violations := []
        inferredDimensions := []
        summary := none } := by
  unfold UnitGuard.analyze
  rw [h]

theorem c7_witness :
    UnitGuard.analyze (fun _ => .error "invalid syntax") "def f(:" =
      { error := some ("Syntax error: " ++ "invalid syntax")
        violations := []
        inferredDimensions := []
        summary := none } :=
  c7_syntax_error (fun _ => .error "invalid syntax") "def f(:" "invalid syntax" rfl

theorem lookupEnv_dictInsert (env : Env) (n : String) (d : Dimension)
    (k : String) :
    lookupEnv (dictInsert env n d) k =
      if n = k then some d else lookupEnv env k := by
  induction env with
  | nil => simp [dictInsert, lookupEnv]
  | cons p rest ih =>
    obtain ⟨k', v⟩ := p
    by_cases h1 : k' = n <;> by_cases h2 : k' = k <;> by_cases h3 : n = k <;>
      simp_all [dictInsert, lookupEnv]

theorem isSome_registerType (env : Env) (n : String) (d : Dimension)
    (k : String) (h : (lookupEnv env k).isSome = true) :
    (lookupEnv (registerType env n d) k).isSome = true := by
  rw [registerType, lookupEnv_dictInsert]
  split
  · rfl
  · exact h

theorem isSome_registerParams :
    ∀ (params : List String) (env : Env) (k : String),
      (lookupEnv env k).isSome = true →
      (lookupEnv (registerParams env params) k).isSome = true
  | [], env, k, h => by simpa [registerParams] using h
  | p :: ps, env, k, h => by
    rw [registerParams]
    cases hp : inferFromName p with
    | some d =>
      exact isSome_registerParams ps _ k (isSome_registerType env p d k h)
    | none =>
      exact isSome_registerParams ps env k h

theorem isSome_processTargets :
    ∀ (ts : Exprs) (env : Env) (rd : Option Dimension) (line col : Nat)
      (k : String),
      (lookupEnv env k).isSome = true →
      (lookupEnv (processTargets env rd line col ts).1 k).isSome = true
  | .nil, env, rd, line, col, k, h => by simpa [processTargets] using h
  | .cons (.ename name l c) rest, env, rd, line, col, k, h => by
    simp only [processTargets]
    cases hrd : rd with
    | some d =>
      exact isSome_processTargets rest _ _ line col k
        (isSome_registerType env name d k h)
    | none =>
      cases he : inferFromName name with
      | some ed =>
        simp only [he]
        exact isSome_processTargets rest _ _ line col k
          (isSome_registerType env name ed k h)
      | none =>
        simp only [he]
        exact isSome_processTargets rest env _ line col k h
  | .cons (.econst v l c) rest, env, rd, line, col, k, h =>
    isSome_processTargets rest env rd line col k h
  | .cons (.binOp a op b l c) rest, env, rd, line, col, k, h =>
    isSome_processTargets rest env rd line col k h
  | .cons (.compare a cs l c) rest, env, rd, line, col, k, h =>
    isSome_processTargets rest env rd line col k h
  | .cons (.call f args kws l c) rest, env, rd, line, col, k, h =>
    isSome_processTargets rest env rd line col k h
  | .cons (.unaryOp o l c) rest, env, rd, line, col, k, h =>
    isSome_processTargets rest env rd line col k h
  | .cons (.attr v a l c) rest, env, rd, line, col, k, h =>
    isSome_processTargets rest env rd line col k h

mutual
theorem envKeysStmt :
    ∀ (s : Stmt) (cf : Option String) (env : Env) (k : String),
      (lookupEnv env k).isSome = true →
      (lookupEnv (runStmt cf env s).1 k).isSome = true
  | .assign targets value line col, cf, env, k, h => by
    rw [runStmt]
    exact isSome_processTargets targets env _ line col k h
  | .funcDef name params body line col, cf, env, k, h => by
    rw [runStmt]
    exact envKeysStmts body (some name) (registerParams env params) k
      (isSome_registerParams params env k h)
  | .exprStmt e, cf, env, k, h => by simpa [runStmt] using h

theorem envKeysStmts :
    ∀ (ss : Stmts) (cf : Option String) (env : Env) (k : String),
      (lookupEnv env k).isSome = true →
      (lookupEnv (runStmts cf env ss).1 k).isSome = true
  | .nil, cf, env, k, h => by simpa [runStmts] using h
  | .cons s ss, cf, env, k, h => by
    rw [runStmts]
    exact envKeysStmts ss cf _ k (envKeysStmt s cf env k h)
end

/-- Claim C1 counterexample: in the program of c1Program, the assignment
foo = mass on line 2 sits inside the body of f, yet after the definition
is exited the module-level lookup of foo on line 3 still returns the mass
dimension registered inside the body (foo has no name-pattern dimension,
so the value can only come from that registration), and the analyzer
accordingly emits an incompatible_addition violation at line 3.  This
refutes the claim that a registration made inside a function body never
affects a lookup performed after the definition is exited. -/
theorem c1_counterexample :
    lookupEnv (runStmts none [] c1Program).1 "foo" = some Dimension.mass ∧
    inferFromName "foo" = none ∧
    (runStmts none [] c1Program).2 =
      [⟨"incompatible_addition", "critical", 3, 0,
        some Dimension.mass, some Dimension.time⟩] := by decide

/-- Claim C1 (amended): entering a function definition pre-registers
parameter names by name inference and recurses into the body, but creates
no new type-environment scope and discards nothing on exit: the analyzer
keeps a single flat environment for the whole analysis call, and a name
once registered (at module level or inside any function body) stays
registered for every later lookup of the call. -/
theorem c1_flat_environment :
    (∀ (cf : Option String) (env : Env) (name : String)
        (params : List String) (body : Stmts) (line col : Nat),
      runStmt cf env (.funcDef name params body line col) =
        runStmts (some name) (registerParams env params) body) ∧
    (∀ (ss : Stmts) (cf : Option String) (env : Env) (k : String),
      (lookupEnv env k).isSome = true →
      (lookupEnv (runStmts cf env ss).1 k).isSome = true) :=
  ⟨fun _ _ _ _ _ _ _ => rfl,
   fun ss cf env k h => envKeysStmts ss cf env k h⟩

theorem c1_witness :
    (lookupEnv (runStmts none [("foo", Dimension.mass)] c1Program).1
      "foo").isSome = true :=
  c1_flat_environment.2 c1Program none [("foo", Dimension.mass)] "foo"
    (by decide)

/-- Claim C2: the code's behavior at the failing inputs.  The analyzer
infers the dimensionless dimension for sqrt(E) although E's dimension is
energy, whose half-exponent vector is [L M T^-1] (sqrt is a member of
dimensionless_funcs, whose test returns before the dedicated sqrt arm can
run), and analyzing r = sqrt(distance), whose argument dimension has an
odd exponent, produces no violation at all - in particular no
fractional_dimension warning, which the analyzer can never emit. -/
theorem c2_sqrt_behavior :
    inferExprDim [] c2SqrtCall = some Dimension.dimensionless ∧
    inferFromName "E" = some Dimension.energy ∧
    Dimension.dimensionless ≠ Dimension.make [1, 0, -1, 0, 0, 0, 0] ∧
    (runStmts none [] c2SqrtProgram).2 = [] := by decide

/-- Claim C3 counterexample: for distance ** 2 the base dimension is
length and the exponent is the literal integer 2, yet the inferred result
is length itself, not power(length, 2): the two differ, refuting the
claim at this input. -/
theorem c3_counterexample :
    inferExprDim [] c3PowExpr = some Dimension.length ∧
    Dimension.length.pow 2 ≠ Dimension.length := by decide

/-- Claim C3 (amended): for every binary power expression whose base has a
known dimension and whose exponent is a literal integer, the inferred
result dimension is the base's dimension unchanged - the exponent's value
is ignored (infer_from_operation returns the left dimension whenever the
exponent's dimension is dimensionless). -/
theorem c3_pow_returns_base (env : Env) (b : Expr) (n : Int)
    (el ec line col : Nat) (l : Dimension)
    (h : inferExprDim env b = some l) :
    inferExprDim env (.binOp b .pow (.econst (.intLit n) el ec) line col) =
      some l := by
  have hdl : Dimension.dimensionless.isDimensionless = true := by decide
  simp [inferExprDim, h, inferFromOperation, BOp.opName, PyConst.isNumeric, hdl]

theorem c3_witness :
    inferExprDim []
      (.binOp (.ename "distance" 1 0) .pow (.econst (.intLit 3) 1 12) 1 0) =
      some Dimension.length :=
  c3_pow_returns_base [] (.ename "distance" 1 0) 3 1 12 1 0 Dimension.length
    (by decide)

/-- Claim C9 counterexample: analyzing the one-call module np.mean(x)
twice with the same detector instance does not yield the same finding
list: the first call returns one finding, the second returns the
first call's finding followed by a fresh copy, because analyze never
resets self.mirages. -/
theorem c9_counterexample :
    (MirageDetector.analyze (MDState.init none) c9Tree).2 =
      [⟨"mean", 1, 0, none, some "x"⟩] ∧
    (MirageDetector.analyze
        ((MirageDetector.analyze (MDState.init none) c9Tree).1) c9Tree).2 =
      [⟨"mean", 1, 0, none, some "x"⟩, ⟨"mean", 1, 0, none, some "x"⟩] ∧
    (MirageDetector.analyze
        ((MirageDetector.analyze (MDState.init none) c9Tree).1) c9Tree).2 ≠
      (MirageDetector.analyze (MDState.init none) c9Tree).2 := by decide

/-- Claim C9 (amended): a mirage analysis on a freshly constructed
detector is a pure function of the configuration and the tree, but
MirageDetector.analyze does not reset the accumulated finding list, so a
second call on the same detector instance returns the first call's
findings followed by a fresh copy of them. -/
theorem c9_accumulates (config : Option Bool) (tree : Module) :
    (MirageDetector.analyze
        ((MirageDetector.analyze (MDState.init config) tree).1) tree).2 =
      (MirageDetector.analyze (MDState.init config) tree).2 ++
        (MirageDetector.analyze (MDState.init config) tree).2 := by
  cases hcv : config.getD true <;>
    simp [MirageDetector.analyze, MDState.init, hcv]

/-- Claim C4: for a detected collapsing-aggregation call (np or numpy
attribute call with operation mean, sum, argmax or argmin) whose first
argument is the bare identifier x, with the default configuration: when
the operation is mean or sum and the variance-context index records, for
(x, current function scope), a variance line within the 10-line window of
the call's line, the call node emits no finding; in every other case
(including every argmax and argmin call) it emits exactly one
MirageFinding at the call's line. -/
theorem c4_call_emission (vc : VCIndex) (cf : Option String) (v a x : String)
    (rest : Exprs) (al ac nl nc xl xc line col : Nat)
    (hv : v = "np" ∨ v = "numpy") (ha : a ∈ aggOps) :
    (((a = "mean" ∨ a = "sum") ∧
        hasVarianceContext true vc cf (some x) line = true) →
      callFindings true vc cf (.attr (.ename v nl nc) a al ac)
        (.cons (.ename x xl xc) rest) line col = []) ∧
    (¬ ((a = "mean" ∨ a = "sum") ∧
        hasVarianceContext true vc cf (some x) line = true) →
      callFindings true vc cf (.attr (.ename v nl nc) a al ac)
        (.cons (.ename x xl xc) rest) line col =
        [{ ftype := a, line := line, col := col, function := cf,
           varName := some x }]) := by
  have hnp : isNpName (Expr.ename v nl nc) = true := by
    rcases hv with h | h <;> simp [isNpName, h]
  have hhead : headNameOf (Exprs.cons (Expr.ename x xl xc) rest) = some x := rfl
  constructor
  · rintro ⟨hms, hvc⟩
    simp [callFindings, detectAgg, hnp, ha, hhead, hms, hvc]
  · intro hns
    simp [callFindings, detectAgg, detectDisc, hnp, ha, hhead, hns]

theorem c4_witness :
    callFindings true [((some "x", none), [5])] none
      (.attr (.ename "np" 7 0) "mean" 7 0) (.cons (.ename "x" 7 8) .nil)
      7 0 = [] :=
  (c4_call_emission [((some "x", none), [5])] none "np" "mean" "x" .nil
      7 0 7 0 7 8 7 0 (Or.inl rfl) (by decide)).1 ⟨Or.inl rfl, by decide⟩

/-- Claim C5: before the final mirage finding list is emitted, every
finding whose source line contains the recognized inline suppression
marker is dropped, regardless of any other condition: a finding of the
raw analysis on a marker-annotated line is never in the final list. -/
theorem c5_inline_suppression (s : MDState) (tree : Module)
    (sourceLines : List String) (f : MirageFinding)
    (_h1 : f ∈ (MirageDetector.analyze s tree).2)
    (h2 : lineHasSuppressionMarker sourceLines f.line = true) :
    f ∉ (MirageDetector.analyzeWithSource s tree sourceLines).2 := by
  intro hmem
  unfold MirageDetector.analyzeWithSource at hmem
  simp only [List.mem_filter] at hmem
  rcases hmem with ⟨-, hp⟩
  rw [h2] at hp
  simp at hp

theorem c5_witness :
    (⟨"mean", 3, 0, none, some "x"⟩ : MirageFinding) ∉
      (MirageDetector.analyzeWithSource (MDState.init none) c5Tree
        c5Source).2 :=
  c5_inline_suppression (MDState.init none) c5Tree c5Source
    ⟨"mean", 3, 0, none, some "x"⟩ (by decide) (by decide)

/-- Claim C8: whenever the (optionally line-filtered) list of detected
target call sites is empty, transpile_source on a freshly constructed
engine returns the original source text unchanged together with an empty
transformation list, as a normal non-error outcome. -/
theorem c8_empty_targets_noop (parse : String → Except String Module)
    (transform : Module → List MirageFinding → String)
    (source : String) (targetLine : Option Nat) (tree : Module)
    (h1 : parse source = .ok tree)
    (h2 : filterByLine (mdStmts true [] none tree) targetLine = []) :
    Transpiler.init.transpileSource parse transform source targetLine =
      .ok (source,
        { detectorMirages := mdStmts true [] none tree
          transformations := [] }) := by
  unfold Transpiler.transpileSource
  rw [h1]
  simp [Transpiler.init, h2]

theorem c8_witness :
    Transpiler.init.transpileSource (fun _ => .ok Stmts.nil) (fun _ _ => "")
      "x = 1" none =
      .ok ("x = 1",
        { detectorMirages := mdStmts true [] none Stmts.nil
          transformations := [] }) :=
  c8_empty_targets_noop (fun _ => .ok Stmts.nil) (fun _ _ => "") "x = 1"
    none Stmts.nil rfl rfl

end Demyst
